import Mathlib

/-!
Shallow embedding of the INV4-Git remote helper (src/src/primitives.rs,
src/src/main.rs) and proofs about the claims of its specification.

Modelling conventions:
* Git object identifiers (`git2::Oid`) are handled by the source exclusively
  through their formatted string form (`format!("{}", oid)`, `Oid::from_str`);
  we model them as opaque `String`s.  The 40-hex well-formedness check of
  `Oid::from_str` is not modelled; no claim depends on it and every concrete
  input below is a renaming of valid hex identifiers.
* `BTreeSet<String>` iterates in sorted order; sets built by the code are
  modelled with `btreeInsert`/`btreeOfList` below.  `BTreeMap<String,String>`
  is modelled as a key-sorted association list (`mapInsert`, `mapRemove`,
  `List.lookup`).
* `HashSet` insertion-order iteration is unspecified in Rust; we model the
  sets `push_todo`, `submodules` and `fetch_todo` as insertion-ordered lists
  (membership/insert faithful; iteration order one admissible order).
* The local repository (`git2::Repository`) is a map from oid to a parsed
  object record plus a ref-name table; the object database write
  (`Odb::write`) recomputes the hash of the written bytes, modelled by an
  explicit hashing function argument `hashOf`.  Records written during fetch
  store only kind and bytes (their parsed children are never consulted).
* Network effects (IPFS add + `ipf.mint` inside `GitObject::chain_add`) are
  driven by a script of outcomes, one per mint attempt: `some id` succeeds
  returning the minted IPF id, `none` models a transport failure.
  Panics (`unwrap`/`expect`) on the modelled paths are represented as errors.
-/

namespace INV4Git

/-- Git object identifiers as the source manipulates them: plain strings. -/
abbrev Oid := String

/-- Magic value signalling a submodule tip (primitives.rs line 22). -/
def SUBMODULE_TIP_MARKER : String := "submodule-tip"

/-- The git object kinds the helper traverses (`git2::ObjectType`). -/
inductive ObjType where
  | commit
  | tree
  | blob
  | tag
deriving DecidableEq, Repr

/-- The lowercase display name of an object type (`git2`'s `Display`). -/
def ObjType.name : ObjType → String
  | .commit => "commit"
  | .tree => "tree"
  | .blob => "blob"
  | .tag => "tag"

/-- One entry of a git tree: its oid and the kind reported by
`TreeEntry::kind()` (an `Option` in git2). -/
structure TreeEntry where
  id : Oid
  kind : Option ObjType
deriving DecidableEq, Repr

/-- A parsed object of the local object database: kind, children and raw
bytes, i.e. everything the helper reads from `git2` about an object. -/
inductive GitRecord where
  | commit (parents : List Oid) (tree : Oid) (raw : List Nat)
  | tree (entries : List TreeEntry) (raw : List Nat)
  | blob (raw : List Nat)
  | tag (target : Oid) (raw : List Nat)
deriving DecidableEq, Repr

def GitRecord.kind : GitRecord → ObjType
  | .commit .. => .commit
  | .tree .. => .tree
  | .blob .. => .blob
  | .tag .. => .tag

def GitRecord.raw : GitRecord → List Nat
  | .commit _ _ r => r
  | .tree _ r => r
  | .blob r => r
  | .tag _ r => r

/-- `GitObjectMetadata` of primitives.rs (lines 60-73).  The `BTreeSet`
fields are sorted, duplicate-free lists. -/
inductive GitObjectMetadata where
  | commit (parent_git_hashes : List Oid) (tree_git_hash : Oid)
  | tag (target_git_hash : Oid)
  | tree (entry_git_hashes : List Oid)
  | blob
deriving DecidableEq, Repr

/-- `GitObject` of primitives.rs (lines 50-58).  The field named
`raw_data_ipfs_hash` in the source actually holds the raw object bytes
(see `from_git_blob` etc., which store `odb_obj.data()`). -/
structure GitObject where
  git_hash : Oid
  raw_data_ipfs_hash : List Nat
  metadata : GitObjectMetadata
deriving DecidableEq, Repr

/-- Test whether the first list of characters leads the second
(`str::starts_with`). -/
def leadsWith : List Char → List Char → Bool
  | [], _ => true
  | _, [] => false
  | a :: as, b :: bs => a = b && leadsWith as bs

/-- `str::starts_with` on strings, by structural recursion on the
underlying character lists. -/
def strStartsWith (s pat : String) : Bool :=
  leadsWith pat.data s.data

/-- Auxiliary tokenizer for `split_ascii_whitespace`. -/
def tokensAux : List Char → List Char → List String
  | [], acc => if acc.isEmpty then [] else [⟨acc.reverse⟩]
  | c :: cs, acc =>
    if c.isWhitespace then
      (if acc.isEmpty then [] else [⟨acc.reverse⟩]) ++ tokensAux cs []
    else
      tokensAux cs (c :: acc)

/-- `str::split_ascii_whitespace`. -/
def splitAsciiWhitespace (s : String) : List String :=
  tokensAux s.data []

/-- Auxiliary splitter for `str::split(':')`: empty parts are kept. -/
def splitColonAux : List Char → List Char → List String
  | [], acc => [⟨acc.reverse⟩]
  | c :: cs, acc =>
    if c = ':' then (⟨acc.reverse⟩ : String) :: splitColonAux cs []
    else splitColonAux cs (c :: acc)

/-- `str::split(':')` collected into a list. -/
def splitColon (s : String) : List String :=
  splitColonAux s.data []

/-- Drop the first character of a string (`&first_half[1..]` on the `+`
force marker). -/
def strDropOne (s : String) : String :=
  ⟨s.data.drop 1⟩

/-- Lexicographic order on character lists, by code point: the order Rust
uses on (ASCII) strings.  Defined structurally so that it evaluates. -/
def charListLt : List Char → List Char → Bool
  | [], [] => false
  | [], _ :: _ => true
  | _ :: _, [] => false
  | a :: as, b :: bs =>
    if a.toNat < b.toNat then true
    else if b.toNat < a.toNat then false
    else charListLt as bs

/-- Lexicographic string order (`Ord` on Rust strings). -/
def strLt (a b : String) : Bool :=
  charListLt a.data b.data

/-- Insertion into a `BTreeSet<String>` viewed as a sorted dedup list. -/
def btreeInsert (x : String) : List String → List String
  | [] => [x]
  | y :: ys =>
    if strLt x y then x :: y :: ys
    else if x = y then y :: ys
    else y :: btreeInsert x ys

/-- Collecting an iterator into a `BTreeSet<String>`. -/
def btreeOfList (l : List String) : List String :=
  l.foldl (fun acc x => btreeInsert x acc) []

/-- `GitObject::from_git_blob` (primitives.rs lines 112-125). -/
def GitObject.from_git_blob (oid : Oid) (raw : List Nat) : GitObject :=
  { git_hash := oid, raw_data_ipfs_hash := raw, metadata := .blob }

/-- `GitObject::from_git_commit` (primitives.rs lines 127-149): the parent
ids are collected into a `BTreeSet`. -/
def GitObject.from_git_commit (oid : Oid) (parents : List Oid) (tree : Oid)
    (raw : List Nat) : GitObject :=
  { git_hash := oid, raw_data_ipfs_hash := raw,
    metadata := .commit (btreeOfList parents) tree }

/-- `GitObject::from_git_tag` (primitives.rs lines 151-166). -/
def GitObject.from_git_tag (oid : Oid) (target : Oid) (raw : List Nat) :
    GitObject :=
  { git_hash := oid, raw_data_ipfs_hash := raw, metadata := .tag target }

/-- `GitObject::from_git_tree` (primitives.rs lines 168-184): collects the
id of EVERY tree entry (`tree.iter().map(|entry| format!("{}", entry.id()))`,
line 177) into a `BTreeSet`, with no filter on the entry kind. -/
def GitObject.from_git_tree (oid : Oid) (entries : List TreeEntry)
    (raw : List Nat) : GitObject :=
  { git_hash := oid, raw_data_ipfs_hash := raw,
    metadata := .tree (btreeOfList (entries.map TreeEntry.id)) }

/-- `RepoData` (primitives.rs lines 224-234): refs is a
`BTreeMap<String,String>`, objects is a plain `Vec<String>`. -/
structure RepoData where
  refs : List (String × String)
  objects : List String
deriving DecidableEq, Repr

/-- The lookup idiom the source uses on `RepoData.objects`
(`self.objects.iter().find(|s| *s == &format!("{}", oid))`,
primitives.rs lines 557-560 and 754-757). -/
def findObj (rd : RepoData) (oid : Oid) : Option String :=
  rd.objects.find? (fun s => s = oid)

/-- `BTreeMap::insert` on a key-sorted association list. -/
def mapInsert (k v : String) : List (String × String) → List (String × String)
  | [] => [(k, v)]
  | (k', v') :: rest =>
    if strLt k k' then (k, v) :: (k', v') :: rest
    else if k = k' then (k, v) :: rest
    else (k', v') :: mapInsert k v rest

/-- `BTreeMap::remove` on a key-sorted association list. -/
def mapRemove (k : String) : List (String × String) → List (String × String)
  | [] => []
  | (k', v') :: rest =>
    if k = k' then rest else (k', v') :: mapRemove k rest

/-- The local repository: the object database and the reference table. -/
structure Repo where
  odb : List (Oid × GitRecord)
  refs : List (String × Oid)
deriving DecidableEq, Repr

def Repo.lookupOdb (repo : Repo) (oid : Oid) : Option GitRecord :=
  repo.odb.lookup oid

/-- `repo.odb()?.read_header(oid).is_ok()`: membership in the local odb. -/
def Repo.odbHas (repo : Repo) (oid : Oid) : Bool :=
  (repo.lookupOdb oid).isSome

/-- `HashSet::insert` on an insertion-ordered list. -/
def insertNew (l : List String) (x : String) : List String :=
  if x ∈ l then l else l ++ [x]

/-- Resolution and classification of the children of one popped object in
`enumerate_for_push` (primitives.rs lines 397-465): returns the child
objects in the order the code pushes them onto the stack, together with the
tree entries recognized as submodule tips.  Child objects the local odb
cannot resolve (`peel`, `parents`, `to_object`, `target`) are errors. -/
def resolveParents (repo : Repo) : List Oid →
    Except String (List (Oid × GitRecord))
  | [] => .ok []
  | p :: ps =>
    match repo.lookupOdb p with
    | none => .error ("could not load parent commit " ++ p)
    | some pRec => (resolveParents repo ps).map (fun rest => (p, pRec) :: rest)

def resolveEntries (repo : Repo) : List TreeEntry →
    Except String (List (Oid × GitRecord) × List Oid)
  | [] => .ok ([], [])
  | e :: es =>
    if e.kind = some .commit then
      (resolveEntries repo es).map (fun acc => (acc.1, e.id :: acc.2))
    else
      match repo.lookupOdb e.id with
      | none => .error ("could not load tree entry " ++ e.id)
      | some rec =>
        (resolveEntries repo es).map (fun acc => ((e.id, rec) :: acc.1, acc.2))

def resolveChildren (repo : Repo) : GitRecord →
    Except String (List (Oid × GitRecord) × List Oid)
  | .commit parents tree _ =>
    match repo.lookupOdb tree with
    | none => .error ("could not peel commit to tree " ++ tree)
    | some treeRec =>
      (resolveParents repo parents).map
        (fun parentObjs => ((tree, treeRec) :: parentObjs, []))
  | .tree entries _ => resolveEntries repo entries
  | .blob _ => .ok ([], [])
  | .tag target _ =>
    match repo.lookupOdb target with
    | none => .error ("could not load tag target " ++ target)
    | some rec => .ok ([(target, rec)], [])

/-- The loop of `RepoData::enumerate_for_push` (primitives.rs lines
367-470), fuel-bounded.  The stack holds resolved objects; on pop the two
containment checks run first (lines 379-387), then the object is recorded
and its children pushed.  Sequential `stack.push` calls mean the children
list joins the stack reversed. -/
def enumForPushLoop (rd : RepoData) (repo : Repo) :
    Nat → List (Oid × GitRecord) → List Oid → List Oid →
    Except String (List Oid × List Oid)
  | 0, _, _, _ => .error "out of fuel"
  | _ + 1, [], push_todo, submodules => .ok (push_todo, submodules)
  | fuel + 1, (oid, rec) :: stack, push_todo, submodules =>
    if rd.objects.contains oid then
      enumForPushLoop rd repo fuel stack push_todo submodules
    else if push_todo.contains oid then
      enumForPushLoop rd repo fuel stack push_todo submodules
    else
      match resolveChildren repo rec with
      | .error e => .error e
      | .ok (children, newSubs) =>
        enumForPushLoop rd repo fuel (children.reverse ++ stack)
          (push_todo ++ [oid]) (newSubs.foldl insertNew submodules)

/-- `RepoData::enumerate_for_push` starting from a resolved root object. -/
def enumerate_for_push (rd : RepoData) (repo : Repo) (root : Oid × GitRecord)
    (fuel : Nat) : Except String (List Oid × List Oid) :=
  enumForPushLoop rd repo fuel [root] [] []

/-- `GitObject::chain_get` (primitives.rs lines 76-110): scan the on-chain
file list for the IPF whose metadata equals the wanted git hash and decode
the stored `GitObject`; error if absent.  The chain is modelled as an
association list from git-hash label to stored object. -/
def chainGet (chain : List (Oid × GitObject)) (gitHash : String) :
    Except String GitObject :=
  match chain.lookup gitHash with
  | some obj => .ok obj
  | none => .error "git_hash ipf not found"

/-- The loop of `RepoData::enumerate_for_fetch` (primitives.rs lines
534-603), fuel-bounded.  Note the source's submodule-marker branch is
`return Ok(())` (line 570): it ends the whole enumeration, discarding the
remaining stack, instead of `continue`. -/
def enumForFetchLoop (rd : RepoData) (repo : Repo)
    (chain : List (Oid × GitObject)) :
    Nat → List Oid → List Oid → Except String (List Oid)
  | 0, _, _ => .error "out of fuel"
  | _ + 1, [], fetch_todo => .ok fetch_todo
  | fuel + 1, oid :: stack, fetch_todo =>
    if repo.odbHas oid then
      enumForFetchLoop rd repo chain fuel stack fetch_todo
    else if fetch_todo.contains oid then
      enumForFetchLoop rd repo chain fuel stack fetch_todo
    else
      match findObj rd oid with
      | none => .error ("Could not find object " ++ oid ++ " in the index")
      | some obj_git_hash =>
        if obj_git_hash = SUBMODULE_TIP_MARKER then
          .ok fetch_todo
        else
          match chainGet chain obj_git_hash with
          | .error e => .error e
          | .ok git_obj =>
            let children :=
              match git_obj.metadata with
              | .commit parent_git_hashes tree_git_hash =>
                tree_git_hash :: parent_git_hashes
              | .tag target_git_hash => [target_git_hash]
              | .tree entry_git_hashes => entry_git_hashes
              | .blob => []
            enumForFetchLoop rd repo chain fuel (children.reverse ++ stack)
              (fetch_todo ++ [oid])

/-- `RepoData::enumerate_for_fetch` from a root oid. -/
def enumerate_for_fetch (rd : RepoData) (repo : Repo)
    (chain : List (Oid × GitObject)) (oid : Oid) (fuel : Nat) :
    Except String (List Oid) :=
  enumForFetchLoop rd repo chain fuel [oid] []

/-- The `ObjectType` the fetch path passes to `Odb::write`
(primitives.rs lines 769-774). -/
def metaKind : GitObjectMetadata → ObjType
  | .blob => .blob
  | .commit .. => .commit
  | .tag .. => .tag
  | .tree .. => .tree

/-- A record as the local odb stores it after a fetch write: the embedding
does not model git's byte-level object format, so records written during
fetch carry only their kind and bytes (their parsed children are never
consulted by any modelled path). -/
def GitRecord.ofKindRaw (k : ObjType) (raw : List Nat) : GitRecord :=
  match k with
  | .commit => .commit [] "" raw
  | .tree => .tree [] raw
  | .blob => .blob raw
  | .tag => .tag "" raw

/-- `Odb::write`: the object database recomputes the id of the written
bytes (modelled by `hashOf`) and stores the object under that id. -/
def Repo.odbWrite (repo : Repo) (hashOf : ObjType → List Nat → Oid)
    (k : ObjType) (raw : List Nat) : Oid × Repo :=
  let oid := hashOf k raw
  (oid,
   if repo.odbHas oid then repo
   else { repo with odb := repo.odb ++ [(oid, .ofKindRaw k raw)] })

/-- One write performed on the local odb during fetch: the declared oid and
the kind and bytes passed to `Odb::write`. -/
structure OdbWriteRec where
  oid : Oid
  kind : ObjType
  raw : List Nat
deriving DecidableEq, Repr

/-- A write whose declared oid matches what the odb computed from the
written bytes. -/
def writeVerified (hashOf : ObjType → List Nat → Oid) (w : OdbWriteRec) :
    Prop :=
  hashOf w.kind w.raw = w.oid

instance (hashOf : ObjType → List Nat → Oid) (w : OdbWriteRec) :
    Decidable (writeVerified hashOf w) := by
  unfold writeVerified
  infer_instance

/-- The loop of `RepoData::fetch_git_objects` (primitives.rs lines
743-785): per oid, look the oid up in `RepoData.objects` (the source
`expect`s, modelled as an error), download and decode the `GitObject`,
skip if already local, otherwise write its bytes under the declared kind
and abort when the recomputed id disagrees with the declared one.  The
repository state (including partial writes) and the log of writes are
returned alongside the outcome. -/
def fetchGitObjectsLoop (rd : RepoData) (chain : List (Oid × GitObject))
    (hashOf : ObjType → List Nat → Oid) :
    List Oid → Repo → List OdbWriteRec →
    Except String Unit × Repo × List OdbWriteRec
  | [], repo, log => (.ok (), repo, log)
  | oid :: rest, repo, log =>
    match findObj rd oid with
    | none =>
      (.error ("Could not find object " ++ oid ++ " in RemoteData"), repo, log)
    | some obj_git_hash =>
      match chainGet chain obj_git_hash with
      | .error e => (.error e, repo, log)
      | .ok git_obj =>
        if repo.odbHas oid then
          fetchGitObjectsLoop rd chain hashOf rest repo log
        else
          let k := metaKind git_obj.metadata
          let written := repo.odbWrite hashOf k git_obj.raw_data_ipfs_hash
          let log' := log ++ [⟨oid, k, git_obj.raw_data_ipfs_hash⟩]
          if written.1 ≠ oid then
            (.error ("Object tree inconsistency detected: fetched " ++ oid ++
                " from " ++ obj_git_hash ++ ", but write result hashes to " ++
                written.1),
             written.2, log')
          else
            fetchGitObjectsLoop rd chain hashOf rest written.2 log'

/-- `RepoData::fetch_git_objects`. -/
def fetch_git_objects (rd : RepoData) (chain : List (Oid × GitObject))
    (hashOf : ObjType → List Nat → Oid) (oids : List Oid) (repo : Repo) :
    Except String Unit × Repo × List OdbWriteRec :=
  fetchGitObjectsLoop rd chain hashOf oids repo []

/-- `repo.reference(name, oid, true, ...)`: force-set a local ref. -/
def Repo.setRef (repo : Repo) (name : String) (oid : Oid) : Repo :=
  { repo with refs := mapInsert name oid repo.refs }

/-- `RepoData::fetch_to_ref_from_str` (primitives.rs lines 472-531):
enumerate the needed oids from the tip, materialize them, then set the
local ref according to the tip's kind.  There is no special case for the
ref name `HEAD` anywhere on this path (nor in `fetch` of main.rs). -/
def fetch_to_ref_from_str (rd : RepoData) (chain : List (Oid × GitObject))
    (hashOf : ObjType → List Nat → Oid) (git_hash ref_name : String)
    (repo : Repo) (fuel : Nat) :
    Except String Unit × Repo × List OdbWriteRec :=
  match enumerate_for_fetch rd repo chain git_hash fuel with
  | .error e => (.error e, repo, [])
  | .ok oids_for_fetch =>
    match fetch_git_objects rd chain hashOf oids_for_fetch repo with
    | (.error e, repo', log) => (.error e, repo', log)
    | (.ok (), repo', log) =>
      match repo'.lookupOdb git_hash with
      | none => (.error "could not read header of new tip", repo', log)
      | some rec =>
        match rec.kind with
        | .commit =>
          if strStartsWith ref_name "refs/tags" then
            (.ok (), repo', log)
          else
            (.ok (), repo'.setRef ref_name git_hash, log)
        | .tag => (.ok (), repo', log)
        | k =>
          (.error ("New tip turned out to be a " ++ k.name ++
              " after fetch"), repo', log)

/-- The mutable context a push threads along: the manifest, the script of
mint outcomes (one entry per attempted IPFS-add-and-mint, `some id` =
success) and the log of git objects successfully uploaded by
`GitObject::chain_add`. -/
structure MintState where
  rd : RepoData
  script : List (Option Nat)
  uploaded : List GitObject
deriving DecidableEq, Repr

/-- `GitObject::chain_add` (primitives.rs lines 187-221): upload the
encoded object to IPFS and mint an IPF whose metadata is the git hash;
returns the minted IPF id.  Outcomes follow the script. -/
def chainAdd (g : GitObject) (st : MintState) :
    Except String Nat × MintState :=
  match st.script with
  | [] => (.error "chain_add failed", st)
  | none :: rest => (.error "chain_add failed", { st with script := rest })
  | some id :: rest =>
    (.ok id, { st with script := rest, uploaded := st.uploaded ++ [g] })

/-- The `GitObject` built from a local object by the matching
`from_git_*` constructor (the four arms of `push_git_objects`). -/
def gitObjectOfRecord (oid : Oid) : GitRecord → GitObject
  | .commit parents tree raw => .from_git_commit oid parents tree raw
  | .tree entries raw => .from_git_tree oid entries raw
  | .blob raw => .from_git_blob oid raw
  | .tag target raw => .from_git_tag oid target raw

/-- The loop of `RepoData::push_git_objects` (primitives.rs lines
607-740): per oid, find the local object, skip it when already recorded in
`RepoData.objects`, otherwise build the `GitObject`, `chain_add` it, and
on success append the minted id to the returned list and the oid string to
`self.objects`.  On failure the state mutated so far is kept (the source
mutates `&mut self` in place). -/
def pushGitObjectsLoop (repo : Repo) :
    List Oid → MintState → List Nat → Except String (List Nat) × MintState
  | [], st, acc => (.ok acc, st)
  | oid :: rest, st, acc =>
    match repo.lookupOdb oid with
    | none => (.error ("find_object failed for " ++ oid), st)
    | some rec =>
      if st.rd.objects.contains oid then
        pushGitObjectsLoop repo rest st acc
      else
        match chainAdd (gitObjectOfRecord oid rec) st with
        | (.error e, st') => (.error e, st')
        | (.ok id, st') =>
          pushGitObjectsLoop repo rest
            { st' with rd := { st'.rd with objects := st'.rd.objects ++ [oid] } }
            (acc ++ [id])

/-- `RepoData::push_git_objects` over one iteration order of the
`HashSet` of oids. -/
def push_git_objects (repo : Repo) (oids : List Oid) (st : MintState) :
    Except String (List Nat) × MintState :=
  pushGitObjectsLoop repo oids st []

/-- The work-ahead check of `push_ref_from_str` (primitives.rs lines
287-315): unless forced, when `ref_dst` already has a remote tip, objects
reachable from it but missing locally abort the push. -/
def pushBehindCheck (rd : RepoData) (repo : Repo)
    (chain : List (Oid × GitObject)) (ref_dst : String) (force : Bool)
    (fuel : Nat) : Except String Unit :=
  if force then .ok ()
  else
    match rd.refs.lookup ref_dst with
    | none => .ok ()
    | some dst_git_hash =>
      match enumerate_for_fetch rd repo chain dst_git_hash fuel with
      | .error e => .error e
      | .ok missing_objects =>
        if missing_objects.isEmpty then .ok ()
        else
          .error ("objects in the index not present in the local " ++
            "repo - a pull is needed")

/-- `RepoData::push_ref_from_str` (primitives.rs lines 251-363).
The empty-source branch (lines 262-272) removes `ref_dst` from `refs` and
returns at once.  Otherwise the source ref is resolved and peeled to the
tip object; without `force`, an existing remote tip is checked for objects
missing locally via `enumerate_for_fetch`; then `enumerate_for_push`
collects `objs_for_push` and `submodules_for_push`, `push_git_objects`
uploads, the literal `SUBMODULE_TIP_MARKER` string is pushed onto
`self.objects` once per submodule oid (the oid itself is NOT recorded:
the commented-out line 355 of the source), and finally
`refs[ref_dst] = tip`. -/
def push_ref_from_str (repo : Repo) (chain : List (Oid × GitObject))
    (ref_src ref_dst : String) (force : Bool) (fuel : Nat) (st : MintState) :
    Except String (List Nat) × MintState :=
  if ref_src = "" then
    (.ok [], { st with rd := { st.rd with refs := mapRemove ref_dst st.rd.refs } })
  else
    match repo.refs.lookup ref_src with
    | none => (.error ("reference " ++ ref_src ++ " not found"), st)
    | some tip =>
      match repo.lookupOdb tip with
      | none => (.error ("could not peel reference " ++ ref_src), st)
      | some tipRec =>
        match pushBehindCheck st.rd repo chain ref_dst force fuel with
        | .error e => (.error e, st)
        | .ok () =>
          match enumerate_for_push st.rd repo (tip, tipRec) fuel with
          | .error e => (.error e, st)
          | .ok (objs_for_push, submodules_for_push) =>
            match push_git_objects repo objs_for_push st with
            | (.error e, st') => (.error e, st')
            | (.ok ipf_id_list, st') =>
              (.ok ipf_id_list,
               { st' with rd :=
                  { refs := mapInsert ref_dst tip st'.rd.refs,
                    objects := st'.rd.objects ++
                      submodules_for_push.map (fun _ => SUBMODULE_TIP_MARKER) } })

/-- The RepoData mint of `RepoData::mint_return_new_old_id` (primitives.rs
lines 787-837): upload the encoded manifest to IPFS and mint an IPF
labeled `RepoData`; the id of the previously stored `RepoData` IPF (found
by scanning the chain) is a parameter of the model. -/
def mintRepoData (st : MintState) : Except String Nat × MintState :=
  match st.script with
  | [] => (.error "RepoData mint failed", st)
  | none :: rest => (.error "RepoData mint failed", { st with script := rest })
  | some id :: rest => (.ok id, { st with script := rest })

instance {ε α : Type} [DecidableEq ε] [DecidableEq α] :
    DecidableEq (Except ε α) := fun a b =>
  match a, b with
  | .ok x, .ok y => decidable_of_iff (x = y) (by simp)
  | .error x, .error y => decidable_of_iff (x = y) (by simp)
  | .ok _, .error _ => .isFalse (by simp)
  | .error _, .ok _ => .isFalse (by simp)

/-- The outcome of one `push` command of main.rs. -/
structure PushCmdOut where
  /-- `Ok` when the command produced a protocol response; `error` when the
  helper itself failed hard (the `?` in main.rs ends the session). -/
  outcome : Except String Unit
  st : MintState
  stdout : List String
  /-- whether the `operate_multisig` swap transaction was issued -/
  swapIssued : Bool
deriving DecidableEq, Repr

/-- The part of a refspec before the first colon, possibly carrying the
`+` force marker (main.rs lines 301-306). -/
def refspecFirstHalf (refArg : String) : String :=
  (splitColon refArg).headD ""

/-- The leading `+` force marker of a refspec. -/
def refspecForce (refArg : String) : Bool :=
  strStartsWith (refspecFirstHalf refArg) "+"

/-- The source side of a refspec, with the force marker stripped. -/
def refspecSrc (refArg : String) : String :=
  if refspecForce refArg then strDropOne (refspecFirstHalf refArg)
  else refspecFirstHalf refArg

/-- The destination side of a refspec (the source `unwrap`s when it is
absent; the model turns the panic into a hard error). -/
def refspecDst (refArg : String) : Option String :=
  (splitColon refArg).get? 1

/-- The `push` function of main.rs (lines 286-383): parse the refspec,
run `push_ref_from_str`; on its success ALWAYS mint a fresh `RepoData` and
submit the batched remove/append `operate_multisig` transaction, then
print `ok <dst>`; on its failure print `error <dst> "<msg>"`.  Either
response line is followed by a blank line. -/
def pushCommand (repo : Repo) (chain : List (Oid × GitObject)) (fuel : Nat)
    (refArg : String) (st : MintState) : PushCmdOut :=
  match refspecDst refArg with
  | none => ⟨.error "could not read destination ref from refspec", st, [], false⟩
  | some dst =>
    match push_ref_from_str repo chain (refspecSrc refArg) dst
      (refspecForce refArg) fuel st with
    | (.error e, st') =>
      ⟨.ok (), st', ["error " ++ dst ++ " \"" ++ e ++ "\"", ""], false⟩
    | (.ok _pack, st') =>
      match mintRepoData st' with
      | (.error e, st'') => ⟨.error e, st'', [], false⟩
      | (.ok _newId, st'') => ⟨.ok (), st'', ["ok " ++ dst, ""], true⟩

/-- The command classification of the dispatcher match in `git` of main.rs
(lines 250-281): the first three whitespace-separated tokens are matched
against the recognized patterns, in source order. -/
inductive DispatchKind where
  | pushCmd (refArg : String)
  | fetchCmd (sha name : String)
  | capabilitiesCmd
  | listCmd
  | emptyCmd
  | unknownCmd
deriving DecidableEq, Repr

def classify (input : String) : DispatchKind :=
  let args := splitAsciiWhitespace input
  match args.get? 0, args.get? 1, args.get? 2 with
  | some "push", some r, none => .pushCmd r
  | some "fetch", some s, some n => .fetchCmd s n
  | some "capabilities", none, none => .capabilitiesCmd
  | some "list", _, none => .listCmd
  | none, none, none => .emptyCmd
  | _, _, _ => .unknownCmd

/-- What one dispatcher iteration does besides printing. -/
inductive StepAction where
  | exitSession
  | runPush (refArg : String)
  | runFetch (sha name : String)
  | noAction
deriving DecidableEq, Repr

/-- The observable behaviour of one iteration of the `git` loop. -/
structure StepOut where
  stdout : List String
  stderr : List String
  action : StepAction
  continues : Bool
deriving DecidableEq, Repr

/-- One iteration of the dispatcher loop of `git` in main.rs (lines
236-284): EOF (empty read) exits; `capabilities` and `list` answer on
stdout; `push`/`fetch` delegate; an unrecognized command prints
`unknown command` AND a blank line on standard error
(`eprintln!("unknown command\n")`, line 279) — not on standard output —
and the loop continues. -/
def gitStep (rd : RepoData) (input : String) : StepOut :=
  if input = "" then ⟨[], [], .exitSession, false⟩
  else
    match classify input with
    | .pushCmd r => ⟨[], [], .runPush r, true⟩
    | .fetchCmd s n => ⟨[], [], .runFetch s n, true⟩
    | .capabilitiesCmd => ⟨["push", "fetch", ""], [], .noAction, true⟩
    | .listCmd =>
      ⟨(rd.refs.map (fun p => p.2 ++ " " ++ p.1)) ++ [""], [], .noAction, true⟩
    | .emptyCmd => ⟨[], [], .noAction, true⟩
    | .unknownCmd => ⟨[], ["unknown command", ""], .noAction, true⟩


/-- The `entry_git_hashes` carried by a tree `GitObject` (empty for the
other variants). -/
def entryGitHashes (g : GitObject) : List Oid :=
  match g.metadata with
  | .tree entry_git_hashes => entry_git_hashes
  | _ => []

/-- Scenario 5 of the specification: commit `aaaa` whose tree `bbbb` holds
one entry of kind Commit, the submodule tip `ffff`. -/
def repoSubmodulePush : Repo :=
  ⟨[("aaaa", .commit [] "bbbb" [0]), ("bbbb", .tree [⟨"ffff", some .commit⟩] [1])],
   [("refs/heads/main", "aaaa")]⟩

/-- An empty manifest together with a mint script granting two uploads. -/
def stFreshManifest : MintState := ⟨⟨[], []⟩, [some 1, some 2], []⟩

/-- The manifest state the buggy push of scenario 5 produces: the
submodule-tip marker sits in `objects` unassociated with `ffff`. -/
def rdSubmodulePushed : RepoData :=
  ⟨[("refs/heads/main", "aaaa")], ["aaaa", "bbbb", "submodule-tip"]⟩

/-- The chain contents after that push: the tree metadata produced by
`from_git_tree` lists the submodule entry `ffff`. -/
def chainSubmodulePushed : List (Oid × GitObject) :=
  [("aaaa", ⟨"aaaa", [0], .commit [] "bbbb"⟩),
   ("bbbb", ⟨"bbbb", [1], .tree ["ffff"]⟩)]

/-- A fresh clone: empty object database, no refs. -/
def emptyRepo : Repo := ⟨[], []⟩

/-- A local repository with a commit `aaaa` and its empty tree `bbbb`. -/
def repoTwoObjects : Repo :=
  ⟨[("aaaa", .commit [] "bbbb" [0]), ("bbbb", .tree [] [1])],
   [("refs/heads/main", "aaaa")]⟩

/-- A mint script whose first upload succeeds and second fails (a network
failure mid-push). -/
def stSecondMintFails : MintState := ⟨⟨[], []⟩, [some 1, none], []⟩

/-- The state `push_ref_from_str` leaves behind when the second upload of
the scenario above fails: the first oid is already in `objects`. -/
def stAfterFailedPush : MintState :=
  ⟨⟨[], ["aaaa"]⟩, [], [⟨"aaaa", [0], .commit [] "bbbb"⟩]⟩

/-- The manifest of a remote that already has every local object, with one
mint-script entry left for the RepoData re-upload. -/
def stAllPushed : MintState :=
  ⟨⟨[("refs/heads/main", "aaaa")], ["aaaa", "bbbb"]⟩, [some 7], []⟩

/-- A hashing oracle under which the blob bytes `[5]` hash to `zzzz`,
never to the declared `aaaa`: a corrupt-manifest situation. -/
def hashOfMismatch : ObjType → List Nat → Oid :=
  fun _ raw => if raw = [5] then "zzzz" else "aaaa"

/-- A manifest declaring the single object `aaaa`. -/
def rdOneBlob : RepoData := ⟨[], ["aaaa"]⟩

/-- A chain holding corrupt bytes for `aaaa`. -/
def chainCorruptBlob : List (Oid × GitObject) := [("aaaa", ⟨"aaaa", [5], .blob⟩)]

/-- A hashing oracle consistent with the two-object repository: the commit
bytes `[0]` hash to `aaaa`, anything else to `bbbb`. -/
def hashOfPlain : ObjType → List Nat → Oid :=
  fun _ raw => if raw = [0] then "aaaa" else "bbbb"

/-- The remote manifest of the two-object repository. -/
def rdTwoObjects : RepoData := ⟨[("refs/heads/main", "aaaa")], ["aaaa", "bbbb"]⟩

/-- The chain contents matching `rdTwoObjects`. -/
def chainTwoObjects : List (Oid × GitObject) :=
  [("aaaa", ⟨"aaaa", [0], .commit [] "bbbb"⟩), ("bbbb", ⟨"bbbb", [1], .tree []⟩)]

/-- The local repository state after fetching `aaaa` for `HEAD` into a
fresh clone: both objects written and the ref `HEAD` set. -/
def repoHeadSet : Repo :=
  ⟨[("aaaa", .commit [] "" [0]), ("bbbb", .tree [] [1])], [("HEAD", "aaaa")]⟩

theorem chainAdd_rd (g : GitObject) (st : MintState) :
    (chainAdd g st).2.rd = st.rd := by
  rcases st with ⟨rd, script, up⟩
  cases script with
  | nil => rfl
  | cons hd tl => cases hd <;> rfl

theorem pushGitObjectsLoop_frame (repo : Repo) :
    ∀ (oids : List Oid) (st : MintState) (acc : List Nat),
      (pushGitObjectsLoop repo oids st acc).2.rd.refs = st.rd.refs ∧
      ∃ l, (pushGitObjectsLoop repo oids st acc).2.rd.objects =
        st.rd.objects ++ l := by
  intro oids
  induction oids with
  | nil =>
    intro st acc
    exact ⟨rfl, [], by simp [pushGitObjectsLoop]⟩
  | cons oid rest ih =>
    intro st acc
    simp only [pushGitObjectsLoop]
    cases hod : repo.lookupOdb oid with
    | none => exact ⟨rfl, [], by simp⟩
    | some r =>
      dsimp only
      cases hc : st.rd.objects.contains oid with
      | true =>
        rw [if_pos rfl]
        exact ih st acc
      | false =>
        rw [if_neg (by simp)]
        split
        · next e st₁ heq =>
          have hrd : st₁.rd = st.rd := by
            have hh := chainAdd_rd (gitObjectOfRecord oid r) st
            rw [heq] at hh
            exact hh
          exact ⟨by rw [hrd], [], by rw [hrd]; simp⟩
        · next id st₁ heq =>
          have hrd : st₁.rd = st.rd := by
            have hh := chainAdd_rd (gitObjectOfRecord oid r) st
            rw [heq] at hh
            exact hh
          obtain ⟨h1, l, h2⟩ :=
            ih { st₁ with rd := { st₁.rd with objects := st₁.rd.objects ++ [oid] } }
              (acc ++ [id])
          refine ⟨?_, [oid] ++ l, ?_⟩
          · rw [h1]
            show st₁.rd.refs = st.rd.refs
            rw [hrd]
          · rw [h2]
            show (st₁.rd.objects ++ [oid]) ++ l = st.rd.objects ++ ([oid] ++ l)
            rw [hrd, List.append_assoc]

theorem push_git_objects_frame (repo : Repo) (oids : List Oid)
    (st : MintState) :
    (push_git_objects repo oids st).2.rd.refs = st.rd.refs ∧
    ∃ l, (push_git_objects repo oids st).2.rd.objects = st.rd.objects ++ l :=
  pushGitObjectsLoop_frame repo oids st []

theorem odbWrite_refs (repo : Repo) (hashOf : ObjType → List Nat → Oid)
    (k : ObjType) (raw : List Nat) :
    (repo.odbWrite hashOf k raw).2.refs = repo.refs := by
  unfold Repo.odbWrite
  dsimp only
  split
  · rfl
  · rfl

theorem fetchLoop_refs (rd : RepoData) (chain : List (Oid × GitObject))
    (hashOf : ObjType → List Nat → Oid) :
    ∀ (oids : List Oid) (repo : Repo) (log : List OdbWriteRec),
      (fetchGitObjectsLoop rd chain hashOf oids repo log).2.1.refs =
        repo.refs := by
  intro oids
  induction oids with
  | nil => intro repo log; rfl
  | cons oid rest ih =>
    intro repo log
    simp only [fetchGitObjectsLoop]
    split
    · rfl
    · split
      · rfl
      · split
        · exact ih repo log
        · split
          · exact odbWrite_refs repo hashOf _ _
          · rw [ih _ _, odbWrite_refs]

theorem fetchLoop_ok_verified (rd : RepoData) (chain : List (Oid × GitObject))
    (hashOf : ObjType → List Nat → Oid) :
    ∀ (oids : List Oid) (repo : Repo) (log : List OdbWriteRec)
      (r : Except String Unit) (repo' : Repo) (log' : List OdbWriteRec),
      fetchGitObjectsLoop rd chain hashOf oids repo log = (r, repo', log') →
      r = .ok () →
      (∀ w ∈ log, writeVerified hashOf w) →
      ∀ w ∈ log', writeVerified hashOf w := by
  intro oids
  induction oids with
  | nil =>
    intro repo log r repo' log' h hr hv
    simp only [fetchGitObjectsLoop, Prod.mk.injEq] at h
    rw [← h.2.2]
    exact hv
  | cons oid rest ih =>
    intro repo log r repo' log' h hr hv
    simp only [fetchGitObjectsLoop] at h
    split at h
    · simp only [Prod.mk.injEq] at h
      rw [← h.1] at hr
      cases hr
    · split at h
      · simp only [Prod.mk.injEq] at h
        rw [← h.1] at hr
        cases hr
      · split at h
        · exact ih _ _ _ _ _ h hr hv
        · split at h
          · simp only [Prod.mk.injEq] at h
            rw [← h.1] at hr
            cases hr
          · next hcond =>
            refine ih _ _ _ _ _ h hr ?_
            intro w hw
            rcases List.mem_append.mp hw with hw1 | hw2
            · exact hv w hw1
            · rcases List.mem_singleton.mp hw2 with rfl
              unfold writeVerified
              exact not_not.mp hcond

theorem fetch_git_objects_refs (rd : RepoData) (chain : List (Oid × GitObject))
    (hashOf : ObjType → List Nat → Oid) (oids : List Oid) (repo : Repo) :
    (fetch_git_objects rd chain hashOf oids repo).2.1.refs = repo.refs :=
  fetchLoop_refs rd chain hashOf oids repo []

theorem fetch_git_objects_ok_verified (rd : RepoData)
    (chain : List (Oid × GitObject)) (hashOf : ObjType → List Nat → Oid)
    (oids : List Oid) (repo : Repo) (repo' : Repo) (log' : List OdbWriteRec)
    (h : fetch_git_objects rd chain hashOf oids repo = (.ok (), repo', log')) :
    ∀ w ∈ log', writeVerified hashOf w := by
  refine fetchLoop_ok_verified rd chain hashOf oids repo [] _ _ _ h rfl ?_
  intro w hw
  cases hw

theorem lookup_mapInsert_self (k v : String) :
    ∀ l : List (String × String), (mapInsert k v l).lookup k = some v := by
  intro l
  induction l with
  | nil => simp [mapInsert, List.lookup]
  | cons p rest ih =>
    rcases p with ⟨k', v'⟩
    unfold mapInsert
    cases h1 : strLt k k' with
    | true =>
      rw [if_pos rfl]
      simp [List.lookup]
    | false =>
      rw [if_neg (by simp)]
      by_cases h2 : k = k'
      · rw [if_pos h2]
        simp [List.lookup]
      · rw [if_neg h2]
        have hbe : (k == k') = false := by
          simp [h2]
        simp [List.lookup, hbe, ih]

theorem lookup_mapRemove_ne (dst k : String) (hk : k ≠ dst) :
    ∀ l : List (String × String), (mapRemove dst l).lookup k = l.lookup k := by
  intro l
  induction l with
  | nil => rfl
  | cons p rest ih =>
    rcases p with ⟨k', v'⟩
    unfold mapRemove
    by_cases h1 : dst = k'
    · rw [if_pos h1]
      have hbe : (k == k') = false := by
        simp
        rw [← h1]
        exact hk
      simp [List.lookup, hbe]
    · rw [if_neg h1]
      cases hbe : k == k' with
      | true => simp [List.lookup, hbe]
      | false => simp [List.lookup, hbe, ih]

theorem lookup_none_of_not_mem_keys :
    ∀ (l : List (String × String)) (k : String),
      k ∉ l.map Prod.fst → l.lookup k = none := by
  intro l
  induction l with
  | nil => intro k h; rfl
  | cons p rest ih =>
    intro k h
    rcases p with ⟨k', v'⟩
    simp only [List.map_cons, List.mem_cons, not_or] at h
    have hbe : (k == k') = false := by
      simp [h.1]
    simp [List.lookup, hbe, ih k h.2]

theorem lookup_mapRemove_self (dst : String) :
    ∀ l : List (String × String), (l.map Prod.fst).Nodup →
      (mapRemove dst l).lookup dst = none := by
  intro l
  induction l with
  | nil => intro; rfl
  | cons p rest ih =>
    intro hnd
    rcases p with ⟨k', v'⟩
    simp only [List.map_cons, List.nodup_cons] at hnd
    unfold mapRemove
    by_cases h1 : dst = k'
    · rw [if_pos h1]
      apply lookup_none_of_not_mem_keys
      rw [← h1] at hnd
      exact hnd.1
    · rw [if_neg h1]
      have hbe : (dst == k') = false := by
        simp [h1]
      simp [List.lookup, hbe, ih hnd.2]

/-- Claim C1: the specification asserts that after a successful push which
classified `ffff` as a submodule tip, `RepoData.objects["ffff"]` equals
`"submodule-tip"`.  In the code `objects` is a plain `Vec<String>` and the
push appends only the bare marker string (the oid is commented out at
primitives.rs line 355), so looking `ffff` up finds nothing: the push of
the specification's scenario 5 succeeds, the marker is in `objects`, yet
`findObj` on `ffff` yields `none`. -/
theorem c1_submodule_tip_not_associated :
    (push_ref_from_str repoSubmodulePush [] "refs/heads/main"
        "refs/heads/main" false 100 stFreshManifest).1 = .ok [1, 2] ∧
    findObj (push_ref_from_str repoSubmodulePush [] "refs/heads/main"
        "refs/heads/main" false 100 stFreshManifest).2.rd "ffff" = none ∧
    SUBMODULE_TIP_MARKER ∈ (push_ref_from_str repoSubmodulePush []
        "refs/heads/main" "refs/heads/main" false 100
        stFreshManifest).2.rd.objects := by
  decide

/-- Claim C2: the specification asserts `from_git_tree` excludes tree
entries of kind Commit from `entry_git_hashes`.  The source collects every
entry id with no filter on the kind, so the submodule tip `ffff` IS a
member of the resulting `entry_git_hashes`. -/
theorem c2_from_git_tree_keeps_commit_entries :
    "ffff" ∈ entryGitHashes (GitObject.from_git_tree "bbbb"
      [⟨"eeee", some .blob⟩, ⟨"ffff", some .commit⟩] [1]) := by
  decide

/-- Claim C3: the specification asserts that a submodule tip popped during
`enumerate_for_fetch` is treated as a leaf and the traversal continues.
In the code the marker is stored in `objects` unassociated with the oid,
so popping the submodule tip `ffff` fails the index lookup and the WHOLE
fetch aborts with an error (and even on a marker match the source's
`return Ok(())` at primitives.rs line 570 would end the entire traversal
rather than continue). -/
theorem c3_fetch_enumeration_fails_at_submodule_tip :
    enumerate_for_fetch rdSubmodulePushed emptyRepo chainSubmodulePushed
      "aaaa" 100 = .error "Could not find object ffff in the index" := by
  decide

/-- Claim C4 (counterexample): a push whose second upload fails reports
`error <dst> ...` yet leaves the first uploaded oid recorded in
`RepoData.objects`: the in-memory manifest is NOT restored to its
pre-command state. -/
theorem c4_counterexample_partial_upload_persists :
    (pushCommand repoTwoObjects [] 100 "refs/heads/main:refs/heads/main"
        stSecondMintFails).stdout =
      ["error refs/heads/main \"chain_add failed\"", ""] ∧
    (pushCommand repoTwoObjects [] 100 "refs/heads/main:refs/heads/main"
        stSecondMintFails).st.rd.objects = ["aaaa"] ∧
    stSecondMintFails.rd.objects = [] := by
  decide

/-- Claim C4 (amended): on any failing `push_ref_from_str` the refs map is
unchanged (the ref is only written after all uploads succeed), but
`RepoData.objects` is NOT rolled back: it is the old vector extended by
the oids already uploaded before the failure. -/
theorem c4_push_failure_keeps_partial_objects (repo : Repo)
    (chain : List (Oid × GitObject)) (src dst : String) (force : Bool)
    (fuel : Nat) (st : MintState) (e : String) (st' : MintState)
    (h : push_ref_from_str repo chain src dst force fuel st = (.error e, st')) :
    st'.rd.refs = st.rd.refs ∧ ∃ l, st'.rd.objects = st.rd.objects ++ l := by
  unfold push_ref_from_str at h
  split at h
  · simp at h
  · split at h
    · simp only [Prod.mk.injEq] at h
      exact ⟨by rw [← h.2], [], by rw [← h.2]; simp⟩
    · split at h
      · simp only [Prod.mk.injEq] at h
        exact ⟨by rw [← h.2], [], by rw [← h.2]; simp⟩
      · split at h
        · simp only [Prod.mk.injEq] at h
          exact ⟨by rw [← h.2], [], by rw [← h.2]; simp⟩
        · split at h
          · simp only [Prod.mk.injEq] at h
            exact ⟨by rw [← h.2], [], by rw [← h.2]; simp⟩
          · split at h
            · next e₁ st₁ heq =>
              simp only [Prod.mk.injEq, Except.error.injEq] at h
              obtain ⟨h1, l, h2⟩ := push_git_objects_frame repo _ st
              rw [heq] at h1 h2
              rw [← h.2]
              exact ⟨h1, l, h2⟩
            · simp at h

/-- Claim C4 (witness): the amended statement applied to the concrete
failing push. -/
theorem c4_witness :
    stAfterFailedPush.rd.refs = stSecondMintFails.rd.refs ∧
    ∃ l, stAfterFailedPush.rd.objects = stSecondMintFails.rd.objects ++ l :=
  c4_push_failure_keeps_partial_objects repoTwoObjects [] "refs/heads/main"
    "refs/heads/main" false 100 stSecondMintFails "chain_add failed"
    stAfterFailedPush (by decide)

/-- Claim C5 (counterexample): re-pushing a tip whose objects are all in
the manifest enumerates nothing and uploads nothing, yet the push command
STILL mints a fresh RepoData and issues the ledger swap transaction. -/
theorem c5_counterexample_empty_push_still_swaps :
    enumerate_for_push stAllPushed.rd repoTwoObjects
      ("aaaa", .commit [] "bbbb" [0]) 100 = .ok ([], []) ∧
    (pushCommand repoTwoObjects [] 100 "refs/heads/main:refs/heads/main"
        stAllPushed).st.uploaded = [] ∧
    (pushCommand repoTwoObjects [] 100 "refs/heads/main:refs/heads/main"
        stAllPushed).swapIssued = true := by
  decide

/-- Claim C5 (amended): an empty `push_git_objects` uploads nothing and is
the identity on the state, but every push command that completes without a
hard failure either reports a push error or has issued the ledger swap —
there is no successful no-swap outcome. -/
theorem c5_empty_push_uploads_nothing_but_swaps :
    (∀ (repo : Repo) (st : MintState),
      push_git_objects repo [] st = (.ok [], st)) ∧
    (∀ (repo : Repo) (chain : List (Oid × GitObject)) (fuel : Nat)
      (refArg : String) (st : MintState) (out : PushCmdOut),
      pushCommand repo chain fuel refArg st = out →
      out.outcome = .ok () →
      out.swapIssued = true ∨
      ∃ dst e, out.stdout = ["error " ++ dst ++ " \"" ++ e ++ "\"", ""]) := by
  constructor
  · intro repo st
    rfl
  · intro repo chain fuel refArg st out h ho
    unfold pushCommand at h
    split at h
    · subst h
      simp at ho
    · next dst hdst =>
      split at h
      · next e st' heq =>
        subst h
        right
        exact ⟨dst, e, rfl⟩
      · next ids st' heq =>
        split at h
        · subst h
          simp at ho
        · subst h
          left
          rfl

/-- Claim C5 (witness): the amended statement applied to the concrete
idempotent re-push. -/
theorem c5_witness :
    push_git_objects emptyRepo [] stAllPushed = (.ok [], stAllPushed) ∧
    ((pushCommand repoTwoObjects [] 100 "refs/heads/main:refs/heads/main"
        stAllPushed).swapIssued = true ∨
     ∃ dst e, (pushCommand repoTwoObjects [] 100
        "refs/heads/main:refs/heads/main" stAllPushed).stdout =
       ["error " ++ dst ++ " \"" ++ e ++ "\"", ""]) :=
  ⟨c5_empty_push_uploads_nothing_but_swaps.1 emptyRepo stAllPushed,
   c5_empty_push_uploads_nothing_but_swaps.2 repoTwoObjects [] 100
     "refs/heads/main:refs/heads/main" stAllPushed _ rfl (by decide)⟩

/-- Claim C6: during fetch every object written into the local odb is
re-hashed; if any written object's recomputed oid disagrees with the
declared one, `fetch_to_ref_from_str` returns an error and the local refs
are untouched. -/
theorem c6_integrity_mismatch_aborts_without_ref (rd : RepoData)
    (chain : List (Oid × GitObject)) (hashOf : ObjType → List Nat → Oid)
    (sha name : String) (repo : Repo) (fuel : Nat)
    (r : Except String Unit) (repo' : Repo) (log : List OdbWriteRec)
    (hrun : fetch_to_ref_from_str rd chain hashOf sha name repo fuel =
      (r, repo', log))
    (hbad : ¬ ∀ w ∈ log, writeVerified hashOf w) :
    (∃ e, r = .error e) ∧ repo'.refs = repo.refs := by
  unfold fetch_to_ref_from_str at hrun
  split at hrun
  · simp only [Prod.mk.injEq] at hrun
    exfalso
    apply hbad
    rw [← hrun.2.2]
    intro w hw
    cases hw
  · next oids heqE =>
    split at hrun
    · next e₁ repo₁ log₁ heq =>
      simp only [Prod.mk.injEq] at hrun
      refine ⟨⟨e₁, by rw [← hrun.1]⟩, ?_⟩
      have h2 := fetch_git_objects_refs rd chain hashOf oids repo
      rw [heq] at h2
      rw [← hrun.2.1]
      exact h2
    · next repo₁ log₁ heq =>
      exfalso
      have hver := fetch_git_objects_ok_verified rd chain hashOf oids repo
        repo₁ log₁ heq
      apply hbad
      have hlog : log = log₁ := by
        split at hrun
        · simp only [Prod.mk.injEq] at hrun
          exact hrun.2.2.symm
        · split at hrun
          · split at hrun
            · simp only [Prod.mk.injEq] at hrun
              exact hrun.2.2.symm
            · simp only [Prod.mk.injEq] at hrun
              exact hrun.2.2.symm
          · simp only [Prod.mk.injEq] at hrun
            exact hrun.2.2.symm
          · simp only [Prod.mk.injEq] at hrun
            exact hrun.2.2.symm
      rw [hlog]
      exact hver

/-- Claim C6 (witness): the corrupt-blob fetch aborts with an error and
sets no ref. -/
theorem c6_witness :
    (∃ e, (fetch_to_ref_from_str rdOneBlob chainCorruptBlob hashOfMismatch
      "aaaa" "refs/heads/main" emptyRepo 100).1 = .error e) ∧
    (fetch_to_ref_from_str rdOneBlob chainCorruptBlob hashOfMismatch
      "aaaa" "refs/heads/main" emptyRepo 100).2.1.refs = emptyRepo.refs :=
  c6_integrity_mismatch_aborts_without_ref rdOneBlob chainCorruptBlob
    hashOfMismatch "aaaa" "refs/heads/main" emptyRepo 100 _ _ _ rfl
    (by decide)

/-- Claim C7 (counterexample): a fetch whose ref name is `HEAD` does NOT
return immediately: it enumerates two objects, writes both into the local
odb, and sets the local ref `HEAD` — contradicting the claimed early
return. -/
theorem c7_counterexample_head_fetch_proceeds :
    fetch_to_ref_from_str rdTwoObjects chainTwoObjects hashOfPlain "aaaa"
      "HEAD" emptyRepo 100 =
    (.ok (), repoHeadSet,
     [⟨"aaaa", .commit, [0]⟩, ⟨"bbbb", .tree, [1]⟩]) := by
  decide

/-- Claim C7 (amended): there is no `HEAD` special case: a successful
fetch for the name `HEAD` whose tip is a commit sets the local ref `HEAD`
to the tip, exactly as for any branch name. -/
theorem c7_head_fetch_sets_ref (rd : RepoData)
    (chain : List (Oid × GitObject)) (hashOf : ObjType → List Nat → Oid)
    (sha : String) (repo : Repo) (fuel : Nat) (repo' : Repo)
    (log : List OdbWriteRec)
    (hrun : fetch_to_ref_from_str rd chain hashOf sha "HEAD" repo fuel =
      (.ok (), repo', log))
    (hkind : ∃ rec, repo'.lookupOdb sha = some rec ∧ rec.kind = .commit) :
    repo'.refs.lookup "HEAD" = some sha := by
  unfold fetch_to_ref_from_str at hrun
  split at hrun
  · simp at hrun
  · split at hrun
    · simp at hrun
    · next repo₁ log₁ heq =>
      split at hrun
      · simp at hrun
      · next rec₁ heqod =>
        split at hrun
        · split at hrun
          · next hst =>
            exact absurd hst (by decide)
          · simp only [Prod.mk.injEq] at hrun
            rw [← hrun.2.1]
            exact lookup_mapInsert_self "HEAD" sha repo₁.refs
        · next heqk =>
          simp only [Prod.mk.injEq] at hrun
          obtain ⟨rec₂, hl₂, hk₂⟩ := hkind
          rw [← hrun.2.1] at hl₂
          rw [heqod] at hl₂
          cases hl₂
          rw [heqk] at hk₂
          cases hk₂
        · simp at hrun

/-- Claim C7 (witness): the amended statement applied to the concrete
`HEAD` fetch. -/
theorem c7_witness : repoHeadSet.refs.lookup "HEAD" = some "aaaa" :=
  c7_head_fetch_sets_ref rdTwoObjects chainTwoObjects hashOfPlain "aaaa"
    emptyRepo 100 repoHeadSet
    [⟨"aaaa", .commit, [0]⟩, ⟨"bbbb", .tree, [1]⟩] (by decide)
    ⟨.commit [] "" [0], by decide, rfl⟩

/-- Claim C8: a push whose refspec source is empty removes exactly the
destination entry from `RepoData.refs` (a no-op on other keys, and the
destination key is gone when the keys are duplicate-free), touches no
`objects` entry, uploads nothing, and returns `Ok` at once. -/
theorem c8_empty_src_deletes_only_ref (repo : Repo)
    (chain : List (Oid × GitObject)) (dst : String) (force : Bool)
    (fuel : Nat) (st : MintState) :
    push_ref_from_str repo chain "" dst force fuel st =
      (.ok [], { st with rd := { st.rd with refs := mapRemove dst st.rd.refs } }) ∧
    (∀ k, k ≠ dst →
      (mapRemove dst st.rd.refs).lookup k = st.rd.refs.lookup k) ∧
    ((st.rd.refs.map Prod.fst).Nodup →
      (mapRemove dst st.rd.refs).lookup dst = none) := by
  refine ⟨?_, ?_, ?_⟩
  · unfold push_ref_from_str
    rw [if_pos rfl]
  · intro k hk
    exact lookup_mapRemove_ne dst k hk st.rd.refs
  · intro hnd
    exact lookup_mapRemove_self dst st.rd.refs hnd

/-- Claim C8 (witness): the ref-delete applied to the concrete two-object
state. -/
theorem c8_witness :
    push_ref_from_str repoTwoObjects [] "" "refs/heads/main" false 100
      stAllPushed =
      (.ok [], { stAllPushed with rd :=
        { stAllPushed.rd with refs := mapRemove "refs/heads/main" stAllPushed.rd.refs } }) ∧
    (mapRemove "refs/heads/main" stAllPushed.rd.refs).lookup "refs/heads/x" =
      stAllPushed.rd.refs.lookup "refs/heads/x" ∧
    (mapRemove "refs/heads/main" stAllPushed.rd.refs).lookup
      "refs/heads/main" = none :=
  ⟨(c8_empty_src_deletes_only_ref repoTwoObjects [] "refs/heads/main" false
      100 stAllPushed).1,
   (c8_empty_src_deletes_only_ref repoTwoObjects [] "refs/heads/main" false
      100 stAllPushed).2.1 "refs/heads/x" (by decide),
   (c8_empty_src_deletes_only_ref repoTwoObjects [] "refs/heads/main" false
      100 stAllPushed).2.2 (by decide)⟩

/-- Claim C9 (counterexample): the dispatcher answers an unrecognized
command with `unknown command` and a blank line on standard ERROR: its
standard output stays empty, contradicting the claimed stdout response
(the session does continue). -/
theorem c9_counterexample_unknown_on_stderr :
    classify "bogus" = .unknownCmd ∧
    (gitStep ⟨[], []⟩ "bogus").stdout = [] ∧
    (gitStep ⟨[], []⟩ "bogus").stderr = ["unknown command", ""] ∧
    (gitStep ⟨[], []⟩ "bogus").continues = true := by
  decide

/-- Claim C9 (amended): every non-EOF line the dispatcher cannot classify
produces `unknown command` plus a blank line on standard error, nothing on
standard output, and the session continues. -/
theorem c9_unknown_command_goes_to_stderr (rd : RepoData) (input : String)
    (h1 : input ≠ "") (h2 : classify input = .unknownCmd) :
    gitStep rd input = ⟨[], ["unknown command", ""], .noAction, true⟩ := by
  unfold gitStep
  rw [if_neg h1, h2]

/-- Claim C9 (witness): the amended statement applied to the line
`bogus`. -/
theorem c9_witness :
    gitStep ⟨[], []⟩ "bogus" =
      ⟨[], ["unknown command", ""], .noAction, true⟩ :=
  c9_unknown_command_goes_to_stderr ⟨[], []⟩ "bogus" (by decide) (by decide)

end INV4Git
